import Mathlib

/-!
Verification of the LyricsGet lyric-resolution core.

The development shallowly embeds the four Python source files
(`lyrics_core.py`, `pl.py`, `uta.py`, `scripts/handle_issue.py`).
Python strings are modelled as `PyStr := List Char` (a Python `str` is a
sequence of Unicode code points).  Stateful loops are translated to
structural recursion, network effects are passed in explicitly through an
environment record, and fallible code returns `Except`/`Option`.
-/

/-- A Python string: a sequence of Unicode code points. -/
abbrev PyStr := List Char

/-- Characters for which Python's `str.isspace` (and hence `str.strip()`
with no argument and the regex class `\s`) holds. -/
def wsList : List Char :=
  ['\t', '\n', '\x0b', '\x0c', '\x0d', '\x1c', '\x1d', '\x1e', '\x1f', ' ',
   '\x85', '\xa0', ' ',
   ' ', ' ', ' ', ' ', ' ', ' ', ' ',
   ' ', ' ', ' ', ' ',
   ' ', ' ', ' ', ' ', '　']

/-- Python whitespace predicate (`str.isspace` on a single code point). -/
def isPyWs (c : Char) : Bool := wsList.contains c

/-- Characters at which Python's `str.splitlines` breaks a line.
Python treats the two-character sequence `\r\n` as a single break; the
model breaks at each of the two characters, producing one extra empty
line, which is invisible to every use below (all uses discard blank
lines). -/
def isLineBreak (c : Char) : Bool :=
  ['\n', '\x0b', '\x0c', '\x0d', '\x1c', '\x1d', '\x1e',
   '\x85', ' ', ' '].contains c

/-- ASCII lower-casing of one code point, the behaviour of Python's
`str.lower` on the ASCII range (and the identity elsewhere, which matches
`str.lower` on the kana/kanji/punctuation characters this program
handles). -/
def pyLower (c : Char) : Char :=
  if 65 ≤ c.toNat ∧ c.toNat ≤ 90 then Char.ofNat (c.toNat + 32) else c

/-- Python `s.strip()`: remove leading and trailing whitespace. -/
def pyStrip (l : PyStr) : PyStr :=
  ((l.dropWhile isPyWs).reverse.dropWhile isPyWs).reverse

/-- Auxiliary for `collapseWs`: the flag records whether the previous
character was whitespace (in which case the current whitespace run has
already emitted its single replacement space). -/
def collapseWsAux (prevWs : Bool) : PyStr → PyStr
  | [] => []
  | c :: l =>
    if isPyWs c then
      (if prevWs then [] else [' ']) ++ collapseWsAux true l
    else c :: collapseWsAux false l

/-- Python `re.sub(r"\s+", " ", s)`: replace each maximal whitespace run
by a single space. -/
def collapseWs (l : PyStr) : PyStr := collapseWsAux false l

/-- Python `s.split(sep)` for a one-character separator: splits at every
occurrence, keeping empty pieces. -/
def splitChar (sep : Char) : PyStr → List PyStr
  | [] => [[]]
  | c :: l =>
    if c = sep then [] :: splitChar sep l
    else
      match splitChar sep l with
      | [] => [[c]]
      | s :: rest => (c :: s) :: rest

/-- Python `s.splitlines()`.  The model keeps a trailing empty segment
(Python drops it) and splits `\r\n` twice (Python splits it once); both
differences only add blank lines, which every caller filters out. -/
def splitLines : PyStr → List PyStr
  | [] => [[]]
  | c :: l =>
    if isLineBreak c then [] :: splitLines l
    else
      match splitLines l with
      | [] => [[c]]
      | s :: rest => (c :: s) :: rest

/-- Substring containment, Python's `pat in s` for strings. -/
def containsSub (pat : PyStr) : PyStr → Bool
  | [] => pat.isEmpty
  | c :: t => pat.isPrefixOf (c :: t) || containsSub pat t

/-- Python `"\n".join(lines)`. -/
def joinNl (lines : List PyStr) : PyStr := List.intercalate ['\n'] lines

/-- Python `max(b :: l, key=f)`: the first element attaining the maximal
key (`max` replaces the current best only on a strictly greater key). -/
def pyMaxBy (f : α → Int) (b : α) : List α → α
  | [] => b
  | x :: xs => pyMaxBy f (if f x > f b then x else b) xs

/-- Python truthiness of an optional string (`if s:`): present and
non-empty. -/
def truthy : Option PyStr → Bool
  | none => false
  | some s => !s.isEmpty

/-! ## Text normalizer (`pl.py::_normalize_key`, `uta.py::_normalize_key`) -/

/-- The punctuation characters removed by `_normalize_key`, the regex
class `["'’`“”\(\)\[\]\{\}<>【】（）［］｛｝・/\\\-\–—:：,，\.。!！\?？~〜]`
(apostrophe, backtick and the ASCII braces are written by code point). -/
def punctList : List Char :=
  ['\"', Char.ofNat 39, '’', Char.ofNat 96, '“', '”',
   '(', ')', '[', ']', Char.ofNat 123, Char.ofNat 125, '<', '>',
   '【', '】', '（', '）', '［', '］', '｛', '｝', '・', '/', '\\',
   '-', '–', '—', ':', '：', ',', '，', '.', '。', '!', '！',
   '?', '？', '~', '〜']

/-- Membership in the normalizer's punctuation class. -/
def isPunct (c : Char) : Bool := punctList.contains c

/-- `_normalize_key` (identical in `pl.py` and `uta.py`): on a falsy
input return `""`; otherwise strip, lower-case, turn the full-width
space into an ASCII space, delete all whitespace (`re.sub(r"\s+", "", s)`)
and delete the punctuation class. -/
def normalize_key (s : Option PyStr) : PyStr :=
  match s with
  | none => []
  | some s =>
    if s.isEmpty then []
    else
      let s1 := (pyStrip s).map pyLower
      let s2 := s1.map (fun c => if c = '　' then ' ' else c)
      let s3 := s2.filter (fun c => !isPyWs c)
      s3.filter (fun c => !isPunct c)

/-! ## Caption cleaner (`lyrics_core.py`) -/

/-- Python `line.isdigit()` restricted to ASCII digits (the only digits
appearing in subtitle index lines). -/
def isAllDigits (l : PyStr) : Bool :=
  !l.isEmpty && l.all (fun c => '0' ≤ c && c ≤ '9')

/-- The SRT time-range arrow separator. -/
def arrowToken : PyStr := "-->".toList

/-- Keep a stripped subtitle line: drop it when empty, purely numeric
(a block index) or containing the time-range arrow. -/
def keepLine (l : PyStr) : Bool :=
  !l.isEmpty && !isAllDigits l && !containsSub arrowToken l

/-- First loop of `_srt_to_lyrics`: strip each raw line and keep the
candidate lines. -/
def srtFilter (raws : List PyStr) : List PyStr :=
  (raws.map pyStrip).filter keepLine

/-- Second loop of `_srt_to_lyrics`: drop a line equal to the previous
kept line (`last` holds the previously kept line). -/
def dedupAux (last : PyStr) : List PyStr → List PyStr
  | [] => []
  | y :: ys => if y = last then dedupAux last ys else y :: dedupAux y ys

/-- Collapse immediately-repeated consecutive lines (`last` starts as
`None`, which no line equals). -/
def dedupConsec : List PyStr → List PyStr
  | [] => []
  | x :: xs => x :: dedupAux x xs

/-- `_srt_to_lyrics`: candidate lines of the subtitle track, consecutive
duplicates collapsed, joined with newlines.  The file is modelled by its
list of raw lines. -/
def srt_to_lyrics (raws : List PyStr) : PyStr :=
  joinNl (dedupConsec (srtFilter raws))

/-- `register_lyrics_from_request`: the SRT download
(`_download_auto_sub_srt`) is an effect, passed in as either an error
message (the download raised) or the raw lines of the produced file;
the function returns `(lyrics, video_id)` (the `info` mapping is omitted:
it merely echoes the inputs). -/
def register_lyrics_from_request (_artist _title video_id : PyStr)
    (srt : Except PyStr (List PyStr)) : Except PyStr (PyStr × PyStr) :=
  match srt with
  | .error e => .error e
  | .ok raws => .ok (srt_to_lyrics raws, video_id)

/-! ## Site-B scraper (`uta.py`) -/

/-- Regex `[一-鿿]`: the char is a CJK ideograph. -/
def isKanji (c : Char) : Bool := 0x4E00 ≤ c.toNat && c.toNat ≤ 0x9FFF

/-- `has_kanji`: the string contains a CJK ideograph. -/
def hasKanji (s : PyStr) : Bool := s.any isKanji

/-- Regex `[぀-ヿ一-鿿]`: Japanese script. -/
def isJpChar (c : Char) : Bool :=
  (0x3040 ≤ c.toNat && c.toNat ≤ 0x30FF) || isKanji c

/-- `has_japanese`: the string contains a Japanese-script character. -/
def hasJapanese (s : PyStr) : Bool := s.any isJpChar

/-- `is_kana_only`: non-empty and every char lies in `぀`–`ヿ`
or is one of `ー゛゜` (which in fact already lie in that range). -/
def isKanaOnly (s : PyStr) : Bool :=
  !s.isEmpty &&
    s.all (fun c =>
      ((0x3040 ≤ c.toNat && c.toNat ≤ 0x30FF) ||
        ['ー', '゛', '゜'].contains c))

/-- Regex `^[A-Za-z]$` on one char. -/
def isLatinChar (c : Char) : Bool :=
  ('A' ≤ c && c ≤ 'Z') || ('a' ≤ c && c ≤ 'z')

/-- `_RE_LATIN_ONLY.match(tok)`: the token consists only of latin
letters (regex `^[A-Za-z]+$`, so the token is non-empty). -/
def isLatinOnly (tok : PyStr) : Bool :=
  !tok.isEmpty && tok.all isLatinChar

/-- Auxiliary for `latinRuns`: `cur` is the (reversed) latin run being
accumulated. -/
def latinRunsAux (cur : PyStr) : PyStr → List PyStr
  | [] => if cur.isEmpty then [] else [cur.reverse]
  | c :: l =>
    if isLatinChar c then latinRunsAux (c :: cur) l
    else if cur.isEmpty then latinRunsAux [] l
    else cur.reverse :: latinRunsAux [] l

/-- The maximal runs of consecutive latin letters in a line, in order. -/
def latinRuns (l : PyStr) : List PyStr := latinRunsAux [] l

/-- `latin_heavy`: `_RE_LATIN_SEQ.findall` (regex `[A-Za-z]{2,}`) yields
the maximal latin runs of length at least 2; the line is latin-heavy when
those runs total at least 12 characters and number at least 4. -/
def latin_heavy (line : PyStr) : Bool :=
  let chunks := (latinRuns line).filter (fun c => 2 ≤ c.length)
  let total := (chunks.map List.length).sum
  12 ≤ total && 4 ≤ chunks.length

/-- A UtaTen search hit (`uta.py::SearchHit`). -/
structure SearchHitB where
  url : PyStr
  title : PyStr
  artist : Option PyStr
deriving DecidableEq, Repr

/-- The exact-match filter of `choose_one`: normalized-title equality
when the requested normalized title is non-empty, and normalized-artist
substring containment (tolerating "feat." suffixes) when the requested
normalized artist is non-empty. -/
def utaExact (nt na : PyStr) (h : SearchHitB) : Bool :=
  let ht := normalize_key (some h.title)
  let ha := normalize_key h.artist
  (if nt.isEmpty then true else ht = nt) &&
    (if na.isEmpty then true else containsSub na ha)

/-- `choose_one`: `None` on an empty hit list, otherwise the first
exact-match hit if any exists, else the first hit. -/
def choose_one (hits : List SearchHitB) (req_title req_artist : PyStr) :
    Option SearchHitB :=
  match hits with
  | [] => none
  | h :: hs =>
    let nt := normalize_key (some req_title)
    let na := normalize_key (some req_artist)
    match (h :: hs).filter (utaExact nt na) with
    | [] => some h
    | e :: _ => some e

/-- The token loop of `clean_line_drop_furigana_romaji`:
`prevHasKanji` tracks whether the previous token was kept and contained
a kanji (any drop resets it). -/
def cleanTokens (prevHasKanji : Bool) : List PyStr → List PyStr
  | [] => []
  | tok :: rest =>
    if tok.isEmpty then cleanTokens prevHasKanji rest
    else if isLatinOnly tok then cleanTokens false rest
    else if prevHasKanji && isKanaOnly tok && tok.length ≤ 12 then
      cleanTokens false rest
    else tok :: cleanTokens (hasKanji tok) rest

/-- `clean_line_drop_furigana_romaji`: collapse whitespace, strip, split
on spaces, run the token loop, concatenate without separators, strip. -/
def clean_line_drop_furigana_romaji (line : PyStr) : PyStr :=
  let toks := splitChar ' ' (pyStrip (collapseWs line))
  pyStrip (cleanTokens false toks).flatten

/-- The `junk_exact` set of `extract_lyrics_only`: exactly-matching UI
labels dropped from the line stream. -/
def junkExact (l : PyStr) : Bool :=
  l = "文字サイズ".toList || l = "ふりがな".toList || l = "ダークモード".toList ||
    l = "歌詞検索".toList || l = "マイページ".toList || l = "歌詞".toList

/-- The per-line loop of `extract_lyrics_only` over the stripped lines:
skip empty and junk lines, stop at the first latin-heavy line, clean each
remaining line, and drop cleaned lines that are empty or short
non-Japanese residue. -/
def processLines : List PyStr → List PyStr
  | [] => []
  | ln :: rest =>
    if ln.isEmpty then processLines rest
    else if junkExact ln then processLines rest
    else if latin_heavy ln then []
    else
      let cl := clean_line_drop_furigana_romaji ln
      if cl.isEmpty then processLines rest
      else if cl.length ≤ 2 && !hasJapanese cl then processLines rest
      else cl :: processLines rest

/-- A node of the parsed HTML document in document order, after the
`script`/`style`/`noscript` elements have been decomposed: a text node
(`NavigableString`), a `<br>` tag, or any other tag. -/
inductive BNode
  | text (s : PyStr)
  | br
  | other
deriving DecidableEq, Repr

/-- `soup.find(string=re.compile(pat))` for a literal pattern: locate the
first text node containing `pat` and return the node sequence after it
(`start.next_elements`); `none` when no text node matches. -/
def findString (pat : PyStr) : List BNode → Option (List BNode)
  | [] => none
  | BNode.text s :: rest =>
    if containsSub pat s then some rest else findString pat rest
  | _ :: rest => findString pat rest

/-- The stop-pattern of `extract_lyrics_only`: any of the review/captcha/
banner fragments that follow the lyric section. -/
def utaStop (s : PyStr) : Bool :=
  containsSub "この歌詞へのご意見".toList s || containsSub "みんなのレビュー".toList s ||
    containsSub "レビューを投稿".toList s ||
    containsSub "ブログやHPでこの歌詞を共有".toList s ||
    containsSub "UtaTenはreCAPTCHA".toList s || containsSub "歌詞検索UtaTen".toList s

/-- `push_text` of `extract_lyrics_only`: replace `\xa0` by a space,
collapse whitespace, strip; if non-empty, append it to the buffer with a
separating space unless a line break was just emitted. -/
def pushText (txt : PyStr) (buf : List PyStr) (lastWasNl : Bool) :
    List PyStr × Bool :=
  let t := pyStrip (collapseWs (txt.map (fun c => if c = '\xa0' then ' ' else c)))
  if t.isEmpty then (buf, lastWasNl)
  else (buf ++ (if lastWasNl then [t] else [" ".toList, t]), false)

/-- The DOM walk of `extract_lyrics_only`: collect text fragments
(stopping at the stop-pattern) and a newline for each `<br>`. -/
def utaWalk (buf : List PyStr) (lastWasNl : Bool) : List BNode → List PyStr
  | [] => buf
  | BNode.text s :: rest =>
    if utaStop s then buf
    else
      let (buf2, nl2) := pushText s buf lastWasNl
      utaWalk buf2 nl2 rest
  | BNode.br :: rest => utaWalk (buf ++ ["\n".toList]) true rest
  | BNode.other :: rest => utaWalk buf lastWasNl rest

/-- Collapse runs of three or more newlines to two
(`re.sub(r"\n{3,}", "\n\n", text)`); `run` counts the pending newline
run. -/
def collapseBlankAux (run : Nat) : PyStr → PyStr
  | [] => List.replicate (min run 2) '\n'
  | c :: l =>
    if c = '\n' then collapseBlankAux (run + 1) l
    else List.replicate (min run 2) '\n' ++ c :: collapseBlankAux 0 l

/-- Collapse 3+ consecutive blank separators to a single blank line. -/
def collapseBlank (l : PyStr) : PyStr := collapseBlankAux 0 l

/-- The post-walk half of `extract_lyrics_only`: join the buffer, split
on newlines, strip each line, run the per-line loop, join and tidy. -/
def extractFrom (rest : List BNode) : PyStr :=
  let raw := (utaWalk [] true rest).flatten
  let lines := (splitChar '\n' raw).map pyStrip
  collapseBlank (pyStrip (joinNl (processLines lines)))

/-- `extract_lyrics_only`: find the landmark `ダークモード` (falling back
to `ふりがな`); with no landmark return the empty string, otherwise
extract from the following nodes. -/
def extract_lyrics_only (doc : List BNode) : PyStr :=
  match findString "ダークモード".toList doc with
  | some rest => extractFrom rest
  | none =>
    match findString "ふりがな".toList doc with
    | some rest => extractFrom rest
    | none => []

/-- The extraction-failure message raised by `fetch_utaten`. -/
def utatenFailMsg : PyStr :=
  "歌詞のみ抽出に失敗しました。\n対策: sleep_sec を増やす / その曲ページURL（/lyric/.../）でHTMLが取れているか確認".toList

/-- The final gate of `fetch_utaten`: an empty or shorter-than-50
extraction raises (`ParseError`), otherwise the lyrics are returned. -/
def fetch_utaten_check (lyrics : PyStr) : Except PyStr PyStr :=
  if lyrics.isEmpty || lyrics.length < 50 then .error utatenFailMsg
  else .ok lyrics

/-! ## Site-A scraper (`pl.py`) -/

/-- A PetitLyrics search hit (`pl.py::SearchHit`). -/
structure SearchHitA where
  lyrics_id : Nat
  title : PyStr
  artist : Option PyStr
  song_url : PyStr
deriving DecidableEq, Repr

/-- The exact-match filter of `choose_best_hit`: normalized-title
equality when the requested normalized title is non-empty, and
normalized-artist equality when the requested normalized artist is
non-empty. -/
def plExact (nt na : PyStr) (h : SearchHitA) : Bool :=
  (if nt.isEmpty then true else normalize_key (some h.title) = nt) &&
    (if na.isEmpty then true else normalize_key h.artist = na)

/-- `choose_best_hit`: `None` on an empty hit list; otherwise restrict to
the exact matches when any exist, and take the hit with the largest
`lyrics_id` ("treated as most recent"; Python's `max` keeps the first of
equals). -/
def choose_best_hit (hits : List SearchHitA) (req_title req_artist : PyStr) :
    Option SearchHitA :=
  match hits with
  | [] => none
  | h :: hs =>
    let nt := normalize_key (some req_title)
    let na := normalize_key (some req_artist)
    let exact := (h :: hs).filter (plExact nt na)
    match (if exact.isEmpty then h :: hs else exact) with
    | [] => some h
    | c :: cs => some (pyMaxBy (fun x => (x.lyrics_id : Int)) c cs)

/-! ## Orchestrator (`scripts/handle_issue.py`) -/

/-- Modelled from the spec: `unicodedata.normalize("NFKC", s)`.  On the
ASCII strings exercised by every theorem below NFKC is the identity, and
it is modelled as such (its full decomposition table is outside the
shallow embedding). -/
def nfkc (s : PyStr) : PyStr := s

/-- `_nf_lrc`: NFKC-normalize, collapse whitespace runs to one space,
strip, lower-case. -/
def nfLrc (s : PyStr) : PyStr := (pyStrip (collapseWs (nfkc s))).map pyLower

/-- An LRCLIB search record (the JSON fields read by the script; a
missing/null field is `none`). -/
structure LrcRec where
  trackName : Option PyStr
  artistName : Option PyStr
  plainLyrics : Option PyStr
  syncedLyrics : Option PyStr
deriving DecidableEq, Repr

/-- The record score of `search_lrclib_by_artist_title`:
`2 * (100 - |len(nf(title)) - len(nf(trackName))|)` when both the request
title and the record's track name are truthy, plus the same term for the
artist. -/
def lrcScore (artist title : Option PyStr) (rec : LrcRec) : Int :=
  (if truthy title && truthy rec.trackName then
    2 * (100 - (Int.natAbs (((nfLrc (title.getD [])).length : Int) -
      ((nfLrc (rec.trackName.getD [])).length : Int)) : Int))
  else 0) +
  (if truthy artist && truthy rec.artistName then
    2 * (100 - (Int.natAbs (((nfLrc (artist.getD [])).length : Int) -
      ((nfLrc (rec.artistName.getD [])).length : Int)) : Int))
  else 0)

/-- `search_lrclib_by_artist_title`: `None` when both request fields are
falsy; the HTTP search result is passed in (`none` models a transport
error or a non-list body, `some []` an empty result list); otherwise the
first record maximizing `lrcScore` (Python `max(data, key=score)`). -/
def search_lrclib_by_artist_title (artist title : Option PyStr)
    (resp : Option (List LrcRec)) : Option LrcRec :=
  if !truthy artist && !truthy title then none
  else
    match resp with
    | none => none
    | some [] => none
    | some (r :: rs) => some (pyMaxBy (lrcScore artist title) r rs)

/-- `_lrclib_has_lyrics`: a record was returned and its `plainLyrics` or
`syncedLyrics` is non-empty after stripping. -/
def lrclib_has_lyrics : Option LrcRec → Bool
  | none => false
  | some rec =>
    !(pyStrip (rec.plainLyrics.getD [])).isEmpty ||
      !(pyStrip (rec.syncedLyrics.getD [])).isEmpty

/-- `_looks_like_lyrics`, the usability gate for caption/scraper text:
after stripping, the text is non-empty, has at least 2 non-blank lines
and at least 20 characters. -/
def looks_like_lyrics (text : PyStr) : Bool :=
  let t := pyStrip text
  if t.isEmpty then false
  else
    let lines := ((splitLines t).filter (fun x => !(pyStrip x).isEmpty)).map pyStrip
    if lines.length < 2 then false
    else if t.length < 20 then false
    else true

/-- The four lyric sources, in cascade order. -/
inductive Source
  | youtube
  | lrclib
  | petitlyrics
  | utaten
deriving DecidableEq, Repr

/-- A parsed issue request: `(artist, title, video_id)` as returned by
`parse_issue_body`. -/
structure Request where
  artist : Option PyStr
  title : Option PyStr
  videoId : Option PyStr
deriving DecidableEq, Repr

/-- The effects of one resolution run: the SRT download outcome, the
LRCLIB search response, and the outcomes of the two scraper adapters
(`fetch_petitlyrics` / `fetch_utaten`: an exception message or the
fetched lyric text). -/
structure Env where
  srt : Except PyStr (List PyStr)
  lrclibResp : Option (List LrcRec)
  petit : Except PyStr PyStr
  utaten : Except PyStr PyStr

/-- Step 1 of `main`: the YouTube caption attempt, run only when a
video id is present. -/
def cascadeStep1 (req : Request) (env : Env) : Option Source × List Source :=
  if truthy req.videoId then
    match register_lyrics_from_request (req.artist.getD []) (req.title.getD [])
        (req.videoId.getD []) env.srt with
    | .ok (ly, _) =>
      (if looks_like_lyrics ly then some Source.youtube else none,
        [Source.youtube])
    | .error _ => (none, [Source.youtube])
  else (none, [])

/-- Step 2 of `main`: the LRCLIB attempt, run when YouTube was not
chosen. -/
def cascadeStep2 (req : Request) (env : Env) (s : Option Source × List Source) :
    Option Source × List Source :=
  if s.1 = some Source.youtube then s
  else
    let r := search_lrclib_by_artist_title req.artist req.title env.lrclibResp
    (if lrclib_has_lyrics r then some Source.lrclib else s.1,
      s.2 ++ [Source.lrclib])

/-- Step 3 of `main`: the PetitLyrics attempt, run when neither YouTube
nor LRCLIB was chosen and the request has an artist or a title. -/
def cascadeStep3 (req : Request) (env : Env) (s : Option Source × List Source) :
    Option Source × List Source :=
  if s.1 = some Source.youtube ∨ s.1 = some Source.lrclib then s
  else if truthy req.artist || truthy req.title then
    match env.petit with
    | .ok ly =>
      (if looks_like_lyrics ly then some Source.petitlyrics else s.1,
        s.2 ++ [Source.petitlyrics])
    | .error _ => (s.1, s.2 ++ [Source.petitlyrics])
  else s

/-- Step 4 of `main`: the UtaTen attempt, run when no earlier source was
chosen and the request has an artist or a title. -/
def cascadeStep4 (req : Request) (env : Env) (s : Option Source × List Source) :
    Option Source × List Source :=
  if s.1 = some Source.youtube ∨ s.1 = some Source.lrclib ∨
      s.1 = some Source.petitlyrics then s
  else if truthy req.artist || truthy req.title then
    match env.utaten with
    | .ok ly =>
      (if looks_like_lyrics ly then some Source.utaten else s.1,
        s.2 ++ [Source.utaten])
    | .error _ => (s.1, s.2 ++ [Source.utaten])
  else s

/-- The fallback cascade of `main` (steps 1-4): returns the chosen source
(`none` models `chosen_source == "none"`) and the ordered list of sources
whose adapter was actually invoked. -/
def cascade (req : Request) (env : Env) : Option Source × List Source :=
  cascadeStep4 req env (cascadeStep3 req env (cascadeStep2 req env
    (cascadeStep1 req env)))

/-! ## Spec-modelled definitions used by the claims -/

/-- Modelled from the spec (claim C2): the number of lines of a text that
contain a non-whitespace character. -/
def specNonBlankLines (t : PyStr) : Nat :=
  ((splitLines t).filter (fun s => s.any (fun c => !isPyWs c))).length

/-- Modelled from the spec (claim C2, as stated): an external-database
record is usable when its `plainLyrics` or `syncedLyrics` field is a
non-empty string. -/
def specDbUsable (rec : LrcRec) : Bool :=
  !(rec.plainLyrics.getD []).isEmpty || !(rec.syncedLyrics.getD []).isEmpty

/-- Modelled from the spec (claim C4): the length-similarity score
`2*(100 - |len(norm(requestedTitle)) - len(norm(candidateTitle))|) +
 2*(100 - |len(norm(requestedArtist)) - len(norm(candidateArtist))|)`
for a Site-B hit, with the Site-B normalizer. -/
def siteBClaimScore (req_title req_artist : PyStr) (h : SearchHitB) : Int :=
  2 * (100 - (Int.natAbs (((normalize_key (some req_title)).length : Int) -
    ((normalize_key (some h.title)).length : Int)) : Int)) +
  2 * (100 - (Int.natAbs (((normalize_key (some req_artist)).length : Int) -
    ((normalize_key h.artist).length : Int)) : Int))

/-- Modelled from the spec (claim C9, as stated): a line is latin-heavy
when its latin-letter runs (of any length) number at least 4 and total at
least 12 characters. -/
def claimLatinHeavy (line : PyStr) : Bool :=
  let runs := latinRuns line
  12 ≤ (runs.map List.length).sum && 4 ≤ runs.length

/-! ## Character-level lemmas -/

theorem toNat_charOfNat (n : Nat) (h : n < 0xd800) : (Char.ofNat n).toNat = n := by
  have hv : n.isValidChar := Or.inl h
  simp [Char.ofNat, hv, Char.ofNatAux, Char.toNat, UInt32.toNat, BitVec.toNat_ofNatLt]

theorem pyLower_idem (c : Char) : pyLower (pyLower c) = pyLower c := by
  unfold pyLower
  by_cases h : 65 ≤ c.toNat ∧ c.toNat ≤ 90
  · simp only [if_pos h]
    have ht : (Char.ofNat (c.toNat + 32)).toNat = c.toNat + 32 :=
      toNat_charOfNat _ (by omega)
    rw [if_neg]
    omega
  · simp only [if_neg h]

/-! ## `pyStrip` lemmas -/

theorem dropWhile_eq_self_of_none (p : Char → Bool) (l : PyStr)
    (h : ∀ c ∈ l, p c = false) : l.dropWhile p = l := by
  cases l with
  | nil => rfl
  | cons c l => simp [List.dropWhile, h c (by simp)]

theorem pyStrip_eq_self (l : PyStr) (h : ∀ c ∈ l, isPyWs c = false) :
    pyStrip l = l := by
  unfold pyStrip
  rw [dropWhile_eq_self_of_none _ _ h,
    dropWhile_eq_self_of_none _ _ (fun c hc => h c (List.mem_reverse.mp hc)),
    List.reverse_reverse]

theorem pyStrip_eq_nil_iff (l : PyStr) :
    pyStrip l = [] ↔ ∀ c ∈ l, isPyWs c = true := by
  unfold pyStrip
  rw [List.reverse_eq_nil_iff, List.dropWhile_eq_nil_iff]
  constructor
  · intro h c hc
    rcases List.mem_append.mp (by
        rw [List.takeWhile_append_dropWhile (p := isPyWs) (l := l)]
        exact hc) with h3 | h3
    · exact List.mem_takeWhile_imp h3
    · exact h _ (List.mem_reverse.mpr h3)
  · intro h c hc
    exact h c (List.dropWhile_sublist (p := isPyWs) |>.mem (List.mem_reverse.mp hc))

theorem pyStrip_mem (l : PyStr) (c : Char) (hc : c ∈ pyStrip l) : c ∈ l := by
  unfold pyStrip at hc
  have h1 := List.mem_reverse.mp hc
  have h2 := (List.dropWhile_sublist (p := isPyWs)).mem h1
  have h3 := List.mem_reverse.mp h2
  exact (List.dropWhile_sublist (p := isPyWs)).mem h3

theorem map_eq_self_of_fixed (f : Char → Char) (l : PyStr)
    (h : ∀ a ∈ l, f a = a) : l.map f = l := by
  induction l with
  | nil => rfl
  | cons a l ih =>
    simp only [List.map_cons, h a (by simp)]
    rw [ih (fun a ha => h a (by simp [ha]))]

/-! ## Normalizer lemmas and claim C5 -/


theorem normalize_key_mem (s : PyStr) (c : Char)
    (hc : c ∈ normalize_key (some s)) :
    isPyWs c = false ∧ isPunct c = false ∧ pyLower c = c := by
  simp only [normalize_key] at hc
  by_cases hs : s.isEmpty
  · rw [if_pos hs] at hc
    exact absurd hc (List.not_mem_nil c)
  · rw [if_neg hs] at hc
    have h4 := List.mem_filter.mp hc
    have h3 := List.mem_filter.mp h4.1
    have hws : isPyWs c = false := by simpa using h3.2
    have hpu : isPunct c = false := by simpa using h4.2
    refine ⟨hws, hpu, ?_⟩
    rcases List.mem_map.mp h3.1 with ⟨b, hb, hbc⟩
    rcases List.mem_map.mp hb with ⟨a, _, hab⟩
    by_cases hfull : b = '　'
    · exfalso
      have hsp : c = ' ' := by rw [← hbc, hfull]; simp
      rw [hsp] at hws
      simp [isPyWs, wsList] at hws
    · have hcb : c = b := by rw [← hbc]; simp [hfull]
      rw [hcb, ← hab]
      exact pyLower_idem a

/-- Claim C5: the text normalizer is idempotent, and an absent or empty
input yields the empty string. -/
theorem normalizer_idempotent_and_falsy :
    (∀ s : PyStr,
      normalize_key (some (normalize_key (some s))) = normalize_key (some s)) ∧
    normalize_key none = [] ∧ normalize_key (some []) = [] := by
  refine ⟨fun s => ?_, rfl, rfl⟩
  set r := normalize_key (some s) with hr
  by_cases hre : r.isEmpty
  · have hnil : r = [] := by simpa [List.isEmpty_iff] using hre
    rw [hnil]
    rfl
  · have hmem := normalize_key_mem s
    have hws : ∀ c ∈ r, isPyWs c = false := fun c hc => (hmem c hc).1
    have hpu : ∀ c ∈ r, isPunct c = false := fun c hc => (hmem c hc).2.1
    have hlo : ∀ c ∈ r, pyLower c = c := fun c hc => (hmem c hc).2.2
    have hfw : ∀ c ∈ r, (if c = '　' then ' ' else c) = c := by
      intro c hc
      have hne : c ≠ '　' := by
        intro he
        have := hws c hc
        rw [he] at this
        simp [isPyWs, wsList] at this
      simp [hne]
    have h1 : pyStrip r = r := pyStrip_eq_self r hws
    have h2 : r.map pyLower = r := map_eq_self_of_fixed _ r hlo
    have h3 : r.map (fun c => if c = '　' then ' ' else c) = r :=
      map_eq_self_of_fixed _ r hfw
    have h4 : r.filter (fun c => !isPyWs c) = r :=
      List.filter_eq_self.mpr (fun c hc => by simp [hws c hc])
    have h5 : r.filter (fun c => !isPunct c) = r :=
      List.filter_eq_self.mpr (fun c hc => by simp [hpu c hc])
    show normalize_key (some r) = r
    simp only [normalize_key]
    rw [if_neg hre, h1, h2, h3, h4, h5]

/-! ## Line-counting lemmas for the usability gate -/

/-- A line is non-blank when it contains a non-whitespace character. -/
def anyNonWs (s : PyStr) : Bool := s.any (fun c => !isPyWs c)

/-- Non-blank-line counter: `seen` records whether the current line has
already contributed a non-whitespace character. -/
def cnb (seen : Bool) : PyStr → Nat
  | [] => 0
  | c :: l =>
    if isLineBreak c then cnb false l
    else if isPyWs c then cnb seen l
    else (if seen then 0 else 1) + cnb true l

theorem splitLines_ne_nil (l : PyStr) : splitLines l ≠ [] := by
  cases l with
  | nil => simp [splitLines]
  | cons c l =>
    simp only [splitLines]
    split
    · simp
    · split <;> simp

theorem cnb_splitLines (l : PyStr) :
    ((splitLines l).filter anyNonWs).length = cnb false l ∧
      ((splitLines l).tail.filter anyNonWs).length = cnb true l := by
  induction l with
  | nil => simp [splitLines, cnb, anyNonWs]
  | cons c l ih =>
    rcases hsp : splitLines l with _ | ⟨s, rest⟩
    · exact absurd hsp (splitLines_ne_nil l)
    · rw [hsp] at ih
      simp only [List.tail_cons] at ih
      obtain ⟨ih1, ih2⟩ := ih
      by_cases hbr : isLineBreak c
      · simp only [splitLines, if_pos hbr, cnb, hsp, List.tail_cons]
        have he : anyNonWs ([] : PyStr) = false := by simp [anyNonWs]
        rw [List.filter_cons, he]
        simp only [Bool.false_eq_true, if_false]
        exact ⟨ih1, ih1⟩
      · by_cases hws : isPyWs c
        · have hadd : anyNonWs (c :: s) = anyNonWs s := by simp [anyNonWs, hws]
          simp only [splitLines, if_neg hbr, hsp, cnb, if_pos hws, List.tail_cons]
          refine ⟨?_, ih2⟩
          rw [List.filter_cons, hadd, ← ih1, List.filter_cons]
          rcases anyNonWs s with _ | _ <;> simp
        · have hadd : anyNonWs (c :: s) = true := by simp [anyNonWs, hws]
          simp only [splitLines, if_neg hbr, hsp, cnb, if_neg hws, List.tail_cons]
          constructor
          · rw [List.filter_cons, hadd]
            simp only [if_true, List.length_cons]
            rw [ih2]
            simp [Nat.add_comm]
          · rw [ih2]
            simp

theorem cnb_cons_ws (c : Char) (l : PyStr) (hc : isPyWs c = true) :
    cnb false (c :: l) = cnb false l := by
  simp only [cnb, hc]
  split <;> rfl

theorem cnb_append_ws (c : Char) (hc : isPyWs c = true) :
    ∀ (l : PyStr) (seen : Bool), cnb seen (l ++ [c]) = cnb seen l := by
  intro l
  induction l with
  | nil =>
    intro seen
    simp only [List.nil_append, cnb]
    split <;> simp [cnb, hc]
  | cons d l ih =>
    intro seen
    simp only [List.cons_append, cnb]
    split
    · exact ih false
    · split
      · exact ih seen
      · exact congrArg (fun n => (if seen = true then 0 else 1) + n) (ih true)

theorem cnb_append_all_ws (t : PyStr) (ht : ∀ c ∈ t, isPyWs c = true) :
    ∀ (x : PyStr) (seen : Bool), cnb seen (x ++ t) = cnb seen x := by
  induction t with
  | nil => simp
  | cons c t ih =>
    intro x seen
    have hx : x ++ c :: t = (x ++ [c]) ++ t := by simp
    rw [hx, ih (fun d hd => ht d (by simp [hd])) (x ++ [c]) seen,
      cnb_append_ws c (ht c (by simp)) x seen]

theorem cnb_dropWhile (l : PyStr) :
    cnb false (l.dropWhile isPyWs) = cnb false l := by
  induction l with
  | nil => rfl
  | cons c l ih =>
    by_cases hc : isPyWs c
    · rw [List.dropWhile_cons_of_pos hc, ih, cnb_cons_ws c l hc]
    · rw [List.dropWhile_cons_of_neg hc]

theorem cnb_pyStrip (l : PyStr) : cnb false (pyStrip l) = cnb false l := by
  have hm : l.dropWhile isPyWs =
      pyStrip l ++ ((l.dropWhile isPyWs).reverse.takeWhile isPyWs).reverse := by
    unfold pyStrip
    conv_lhs => rw [← List.reverse_reverse (l.dropWhile isPyWs)]
    conv_lhs =>
      rw [← List.takeWhile_append_dropWhile (p := isPyWs)
        (l := (l.dropWhile isPyWs).reverse)]
    rw [List.reverse_append]
  have hws : ∀ c ∈ ((l.dropWhile isPyWs).reverse.takeWhile isPyWs).reverse,
      isPyWs c = true := by
    intro c hc
    exact List.mem_takeWhile_imp (List.mem_reverse.mp hc)
  calc cnb false (pyStrip l)
      = cnb false (pyStrip l ++
          ((l.dropWhile isPyWs).reverse.takeWhile isPyWs).reverse) :=
        (cnb_append_all_ws _ hws _ false).symm
    _ = cnb false (l.dropWhile isPyWs) := by rw [← hm]
    _ = cnb false l := cnb_dropWhile l

theorem anyNonWs_eq_strip_ne_nil (x : PyStr) :
    (!(pyStrip x).isEmpty) = anyNonWs x := by
  by_cases h : pyStrip x = []
  · have hall := (pyStrip_eq_nil_iff x).mp h
    have : anyNonWs x = false := by
      simp only [anyNonWs, List.any_eq_false]
      intro c hc
      simp [hall c hc]
    simp [h, this]
  · have hex : ∃ c ∈ x, isPyWs c = false := by
      by_contra hno
      push_neg at hno
      exact h ((pyStrip_eq_nil_iff x).mpr (fun c hc => by
        have := hno c hc
        revert this
        rcases isPyWs c with _ | _ <;> simp))
    rcases hex with ⟨c, hc, hcw⟩
    have : anyNonWs x = true := by
      simp only [anyNonWs, List.any_eq_true]
      exact ⟨c, hc, by simp [hcw]⟩
    simp [this, List.isEmpty_iff, h]

theorem specNonBlankLines_eq_cnb (t : PyStr) :
    specNonBlankLines t = cnb false t := by
  unfold specNonBlankLines
  exact (cnb_splitLines t).1

/-- The gate's line count over the stripped text equals the non-blank
line count of the original text. -/
theorem gate_lines_eq_spec (t : PyStr) :
    (((splitLines (pyStrip t)).filter
        (fun x => !(pyStrip x).isEmpty)).map pyStrip).length =
      specNonBlankLines t := by
  rw [List.length_map,
    List.filter_congr (fun x _ => anyNonWs_eq_strip_ne_nil x),
    (cnb_splitLines (pyStrip t)).1, cnb_pyStrip, specNonBlankLines_eq_cnb]

theorem looks_like_lyrics_eq_spec (t : PyStr) :
    looks_like_lyrics t =
      (decide (2 ≤ specNonBlankLines t) && decide (20 ≤ (pyStrip t).length)) := by
  have hlen := gate_lines_eq_spec t
  by_cases ht : (pyStrip t).isEmpty
  · have hnil : pyStrip t = [] := by simpa [List.isEmpty_iff] using ht
    have h0 : specNonBlankLines t = 0 := by
      rw [specNonBlankLines_eq_cnb, ← cnb_pyStrip t, hnil]
      rfl
    simp [looks_like_lyrics, ht, h0]
  · simp only [looks_like_lyrics, ht, Bool.false_eq_true, if_false]
    rw [hlen]
    split_ifs with h1 h2
    · have hn : ¬ 2 ≤ specNonBlankLines t := by omega
      simp [hn]
    · have hn : ¬ 20 ≤ (pyStrip t).length := by omega
      simp [hn]
    · have ha : 2 ≤ specNonBlankLines t := by omega
      have hb : 20 ≤ (pyStrip t).length := by omega
      simp [ha, hb]

theorem lrclib_gate_eq (rec : LrcRec) :
    lrclib_has_lyrics (some rec) =
      (anyNonWs (rec.plainLyrics.getD []) || anyNonWs (rec.syncedLyrics.getD [])) := by
  show (!(pyStrip (rec.plainLyrics.getD [])).isEmpty ||
      !(pyStrip (rec.syncedLyrics.getD [])).isEmpty) = _
  rw [anyNonWs_eq_strip_ne_nil, anyNonWs_eq_strip_ne_nil]

/-! ## Cascade step lemmas -/

theorem cascadeStep1_no_video (req : Request) (env : Env)
    (hv : truthy req.videoId = false) : cascadeStep1 req env = (none, []) := by
  unfold cascadeStep1
  rw [hv]
  simp

theorem cascadeStep2_shape (req : Request) (env : Env)
    (s : Option Source × List Source) (h : s.1 ≠ some Source.youtube) :
    cascadeStep2 req env s =
      (if lrclib_has_lyrics (search_lrclib_by_artist_title req.artist req.title
          env.lrclibResp) then some Source.lrclib else s.1,
        s.2 ++ [Source.lrclib]) := by
  unfold cascadeStep2
  rw [if_neg h]

theorem cascadeStep3_shape (req : Request) (env : Env) (c : Option Source)
    (att : List Source) :
    cascadeStep3 req env (c, att) = (c, att) ∨
      ∃ d, cascadeStep3 req env (c, att) = (d, att ++ [Source.petitlyrics]) ∧
        (d = some Source.petitlyrics ∨ d = c) := by
  unfold cascadeStep3
  split_ifs with h1 h2
  · exact Or.inl rfl
  · rcases env.petit with e | ly
    · exact Or.inr ⟨c, rfl, Or.inr rfl⟩
    · by_cases hll : looks_like_lyrics ly
      · exact Or.inr ⟨some Source.petitlyrics, by simp [hll], Or.inl rfl⟩
      · exact Or.inr ⟨c, by simp [hll], Or.inr rfl⟩
  · exact Or.inl rfl

theorem cascadeStep3_entered (req : Request) (env : Env) (c : Option Source)
    (att : List Source)
    (h1 : ¬(c = some Source.youtube ∨ c = some Source.lrclib))
    (h2 : (truthy req.artist || truthy req.title) = true) :
    ∃ d, cascadeStep3 req env (c, att) = (d, att ++ [Source.petitlyrics]) ∧
      (d = some Source.petitlyrics ∨ d = c) := by
  unfold cascadeStep3
  rw [if_neg h1, if_pos h2]
  rcases env.petit with e | ly
  · exact ⟨c, rfl, Or.inr rfl⟩
  · by_cases hll : looks_like_lyrics ly
    · exact ⟨some Source.petitlyrics, by simp [hll], Or.inl rfl⟩
    · exact ⟨c, by simp [hll], Or.inr rfl⟩

theorem cascadeStep4_shape (req : Request) (env : Env) (c : Option Source)
    (att : List Source) :
    cascadeStep4 req env (c, att) = (c, att) ∨
      ∃ d, cascadeStep4 req env (c, att) = (d, att ++ [Source.utaten]) ∧
        (d = some Source.utaten ∨ d = c) := by
  unfold cascadeStep4
  split_ifs with h1 h2
  · exact Or.inl rfl
  · rcases env.utaten with e | ly
    · exact Or.inr ⟨c, rfl, Or.inr rfl⟩
    · by_cases hll : looks_like_lyrics ly
      · exact Or.inr ⟨some Source.utaten, by simp [hll], Or.inl rfl⟩
      · exact Or.inr ⟨c, by simp [hll], Or.inr rfl⟩
  · exact Or.inl rfl

/-- Claim C1: with title and artist present but no video id, the caption
(YouTube) adapter is never invoked and the first source actually
attempted is the external lyrics database (LRCLIB). -/
theorem caption_skipped_lrclib_first (req : Request) (env : Env)
    (hv : req.videoId = none)
    (_ha : truthy req.artist = true)
    (_ht : truthy req.title = true) :
    Source.youtube ∉ (cascade req env).2 ∧
      (cascade req env).2.head? = some Source.lrclib := by
  have h1 : cascadeStep1 req env = (none, []) :=
    cascadeStep1_no_video req env (by rw [hv]; rfl)
  obtain ⟨c2, h2, hc2⟩ : ∃ c2, cascadeStep2 req env (none, []) =
      (c2, [Source.lrclib]) ∧ c2 ≠ some Source.youtube := by
    refine ⟨if lrclib_has_lyrics (search_lrclib_by_artist_title req.artist
      req.title env.lrclibResp) then some Source.lrclib else none, ?_, ?_⟩
    · rw [cascadeStep2_shape req env (none, []) (by simp)]
      rfl
    · split <;> simp
  unfold cascade
  rw [h1, h2]
  rcases cascadeStep3_shape req env c2 [Source.lrclib] with h3 | ⟨c3, h3, hc3⟩ <;>
    rw [h3]
  · rcases cascadeStep4_shape req env c2 [Source.lrclib] with h4 | ⟨c4, h4, hc4⟩ <;>
      rw [h4] <;> simp
  · rcases cascadeStep4_shape req env c3
        ([Source.lrclib] ++ [Source.petitlyrics]) with h4 | ⟨c4, h4, hc4⟩ <;>
      rw [h4] <;> simp

/-- Witness for claim C1 at a concrete request and environment. -/
theorem caption_skipped_lrclib_first_witness :
    Source.youtube ∉
        (cascade ⟨some "a".toList, some "t".toList, none⟩
          ⟨Except.error [], none, Except.error [], Except.error []⟩).2 ∧
      (cascade ⟨some "a".toList, some "t".toList, none⟩
          ⟨Except.error [], none, Except.error [], Except.error []⟩).2.head? =
        some Source.lrclib :=
  caption_skipped_lrclib_first _ _ rfl (by decide) (by decide)

/-- Counterexample to claim C2 as stated: an LRCLIB record whose
`plainLyrics` field is the non-empty string `" "` satisfies the claimed
gate ("plainLyrics or syncedLyrics is non-empty") yet the orchestrator
treats it as unusable, because the code strips whitespace first. -/
theorem db_usability_claim_mismatch :
    specDbUsable ⟨none, none, some " ".toList, none⟩ = true ∧
      lrclib_has_lyrics (some ⟨none, none, some " ".toList, none⟩) = false := by
  constructor <;> decide

/-- Claim C2 (amended): a caption/scraper result is usable precisely when
its text has at least 2 lines containing a non-whitespace character and
at least 20 characters after trimming surrounding whitespace; an
external-DB record is usable precisely when `plainLyrics` or
`syncedLyrics` contains a non-whitespace character; and a run in which
the DB returns a record with both lyric fields blank continues past the
DB to the next source. -/
theorem usability_gate_amended :
    (∀ t : PyStr, looks_like_lyrics t =
      (decide (2 ≤ specNonBlankLines t) && decide (20 ≤ (pyStrip t).length))) ∧
    (∀ rec : LrcRec, lrclib_has_lyrics (some rec) =
      (anyNonWs (rec.plainLyrics.getD []) ||
        anyNonWs (rec.syncedLyrics.getD []))) ∧
    (∀ (req : Request) (env : Env) (rec : LrcRec),
      req.videoId = none → truthy req.title = true →
      env.lrclibResp = some [rec] →
      pyStrip (rec.plainLyrics.getD []) = [] →
      pyStrip (rec.syncedLyrics.getD []) = [] →
      (cascade req env).1 ≠ some Source.lrclib ∧
        Source.petitlyrics ∈ (cascade req env).2) := by
  refine ⟨looks_like_lyrics_eq_spec, lrclib_gate_eq, ?_⟩
  intro req env rec hv ht hresp hp hs
  have hsearch : search_lrclib_by_artist_title req.artist req.title
      env.lrclibResp = some rec := by
    unfold search_lrclib_by_artist_title
    rw [ht, hresp]
    simp [pyMaxBy]
  have hgate : lrclib_has_lyrics (search_lrclib_by_artist_title req.artist
      req.title env.lrclibResp) = false := by
    rw [hsearch]
    simp [lrclib_has_lyrics, hp, hs]
  have h1 : cascadeStep1 req env = (none, []) :=
    cascadeStep1_no_video req env (by rw [hv]; rfl)
  have h2 : cascadeStep2 req env (none, []) = (none, [Source.lrclib]) := by
    rw [cascadeStep2_shape req env (none, []) (by simp), hgate]
    simp
  obtain ⟨c3, h3, hc3⟩ := cascadeStep3_entered req env none [Source.lrclib]
    (by simp) (by rw [ht]; simp)
  unfold cascade
  rw [h1, h2, h3]
  rcases cascadeStep4_shape req env c3
      ([Source.lrclib] ++ [Source.petitlyrics]) with h4 | ⟨c4, h4, hc4⟩ <;>
    rw [h4]
  · constructor
    · rcases hc3 with h | h <;> simp [h]
    · simp
  · constructor
    · rcases hc4 with h | h
      · simp [h]
      · rcases hc3 with h' | h' <;> simp [h, h']
    · simp

/-- Witness for claim C2 (amended) at concrete inputs. -/
theorem usability_gate_amended_witness :
    looks_like_lyrics "abcdefghij\nklmnopqrst".toList = true ∧
      lrclib_has_lyrics (some ⟨none, none, some "doo doo".toList, none⟩) = true ∧
      ((cascade ⟨none, some "t".toList, none⟩
          ⟨Except.error [], some [⟨none, none, some " ".toList, none⟩],
            Except.error [], Except.error []⟩).1 ≠ some Source.lrclib ∧
        Source.petitlyrics ∈ (cascade ⟨none, some "t".toList, none⟩
          ⟨Except.error [], some [⟨none, none, some " ".toList, none⟩],
            Except.error [], Except.error []⟩).2) := by
  refine ⟨?_, ?_, ?_⟩
  · rw [usability_gate_amended.1]
    decide
  · rw [usability_gate_amended.2.1]
    decide
  · exact usability_gate_amended.2.2 _ _ _ rfl (by decide) rfl
      (by decide) (by decide)

/-! ## `pyMaxBy` lemmas and claim C3 -/

theorem pyMaxBy_mem (f : α → Int) (b : α) (l : List α) :
    pyMaxBy f b l = b ∨ pyMaxBy f b l ∈ l := by
  induction l generalizing b with
  | nil => exact Or.inl rfl
  | cons x xs ih =>
    simp only [pyMaxBy]
    rcases ih (if f x > f b then x else b) with h | h
    · rw [h]
      split
      · exact Or.inr (by simp)
      · exact Or.inl rfl
    · exact Or.inr (by simp [h])

theorem pyMaxBy_le (f : α → Int) (b : α) (l : List α) :
    f b ≤ f (pyMaxBy f b l) ∧ ∀ x ∈ l, f x ≤ f (pyMaxBy f b l) := by
  induction l generalizing b with
  | nil => exact ⟨le_refl _, by simp⟩
  | cons x xs ih =>
    obtain ⟨h1, h2⟩ := ih (if f x > f b then x else b)
    have hb : f b ≤ f (if f x > f b then x else b) := by
      split
      · next hgt => exact le_of_lt hgt
      · exact le_refl _
    have hx : f x ≤ f (if f x > f b then x else b) := by
      split
      · exact le_refl _
      · next hle => exact le_of_not_lt hle
    refine ⟨le_trans hb h1, fun y hy => ?_⟩
    rcases List.mem_cons.mp hy with rfl | hy2
    · exact le_trans hx h1
    · exact h2 y hy2

/-- Claim C3: the Site-A disambiguator returns `None` on an empty hit
list; when the hit list contains an exact match (normalized-title
equality when the requested normalized title is non-empty, and
normalized-artist equality when the requested normalized artist is
non-empty), the chosen hit is an exact match from the list, and no exact
match has a larger `lyrics_id`. -/
theorem choose_best_hit_spec :
    (∀ t a : PyStr, choose_best_hit [] t a = none) ∧
    (∀ (hits : List SearchHitA) (t a : PyStr),
      (∃ h ∈ hits,
        plExact (normalize_key (some t)) (normalize_key (some a)) h = true) →
      ∃ c, choose_best_hit hits t a = some c ∧ c ∈ hits ∧
        plExact (normalize_key (some t)) (normalize_key (some a)) c = true ∧
        ∀ h ∈ hits,
          plExact (normalize_key (some t)) (normalize_key (some a)) h = true →
          h.lyrics_id ≤ c.lyrics_id) := by
  constructor
  · intro t a
    rfl
  · intro hits t a hex
    rcases hits with _ | ⟨h, hs⟩
    · simp at hex
    · obtain ⟨w, hw, hwex⟩ := hex
      rcases hfe : (h :: hs).filter
          (plExact (normalize_key (some t)) (normalize_key (some a))) with _ | ⟨e, es⟩
      · exact absurd hfe
          (List.ne_nil_of_mem (List.mem_filter.mpr ⟨hw, hwex⟩))
      · have hch : choose_best_hit (h :: hs) t a =
            some (pyMaxBy (fun x => (x.lyrics_id : Int)) e es) := by
          simp only [choose_best_hit]
          rw [hfe]
          simp
        set c := pyMaxBy (fun x => (x.lyrics_id : Int)) e es with hc
        have hcm : c ∈ e :: es := by
          rcases pyMaxBy_mem (fun x => (x.lyrics_id : Int)) e es with h' | h'
          · rw [← hc] at h'
            rw [h']
            simp
          · rw [← hc] at h'
            exact List.mem_cons_of_mem e h'
        have hcf : c ∈ (h :: hs).filter
            (plExact (normalize_key (some t)) (normalize_key (some a))) := by
          rw [hfe]
          exact hcm
        obtain ⟨hchits, hcex⟩ := List.mem_filter.mp hcf
        refine ⟨c, hch, hchits, hcex, fun y hy hyex => ?_⟩
        have hyf : y ∈ e :: es := by
          rw [← hfe]
          exact List.mem_filter.mpr ⟨hy, hyex⟩
        have hle := pyMaxBy_le (fun x => (x.lyrics_id : Int)) e es
        rcases List.mem_cons.mp hyf with rfl | hy2
        · exact_mod_cast hle.1
        · exact_mod_cast hle.2 y hy2

/-- Witness for claim C3 at a concrete hit list: two exact matches (ids 3
and 7) and one non-match (id 5). -/
theorem choose_best_hit_spec_witness :
    ∃ c, choose_best_hit
        [⟨3, "t".toList, some "a".toList, "u".toList⟩,
          ⟨7, "T ".toList, some "A".toList, "v".toList⟩,
          ⟨5, "zz".toList, some "a".toList, "w".toList⟩] "t".toList "a".toList =
        some c ∧
      c ∈ [⟨3, "t".toList, some "a".toList, "u".toList⟩,
          ⟨7, "T ".toList, some "A".toList, "v".toList⟩,
          ⟨5, "zz".toList, some "a".toList, "w".toList⟩] ∧
      plExact (normalize_key (some "t".toList))
        (normalize_key (some "a".toList)) c = true ∧
      ∀ h ∈ [⟨3, "t".toList, some "a".toList, "u".toList⟩,
          ⟨7, "T ".toList, some "A".toList, "v".toList⟩,
          ⟨5, "zz".toList, some "a".toList, "w".toList⟩],
        plExact (normalize_key (some "t".toList))
          (normalize_key (some "a".toList)) h = true →
        h.lyrics_id ≤ c.lyrics_id :=
  choose_best_hit_spec.2 _ "t".toList "a".toList
    ⟨⟨3, "t".toList, some "a".toList, "u".toList⟩, by decide, by decide⟩

/-! ## Claim C4: the Site-B disambiguator -/

theorem find?_eq_filter_head (p : α → Bool) (l : List α) :
    l.find? p = (l.filter p).head? := by
  induction l with
  | nil => rfl
  | cons x xs ih =>
    by_cases hx : p x
    · rw [List.find?_cons_of_pos _ hx, List.filter_cons_of_pos hx]
      rfl
    · rw [List.find?_cons_of_neg _ (by simp [hx]),
        List.filter_cons_of_neg (by simp [hx]), ih]

/-- Counterexample to claim C4 as stated: with requested title `"abcd"`
and artist `"x"`, neither hit is an exact match, and the second hit has
the strictly larger length-similarity score, yet `choose_one` returns
the first hit. -/
theorem siteB_score_claim_mismatch :
    choose_one
        [⟨"u1".toList, "z".toList, some "x".toList⟩,
          ⟨"u2".toList, "wxyz".toList, some "x".toList⟩]
        "abcd".toList "x".toList =
      some ⟨"u1".toList, "z".toList, some "x".toList⟩ ∧
    siteBClaimScore "abcd".toList "x".toList
        ⟨"u2".toList, "wxyz".toList, some "x".toList⟩ >
      siteBClaimScore "abcd".toList "x".toList
        ⟨"u1".toList, "z".toList, some "x".toList⟩ := by
  constructor <;> decide

/-- Claim C4 (amended): the Site-B disambiguator does not use the
length-similarity score: it returns the first hit satisfying the
exact-match filter (normalized-title equality when the requested
normalized title key is non-empty, normalized-artist substring
containment when the requested normalized artist key is non-empty) when
one exists, the first hit otherwise, and `None` on an empty list. -/
theorem choose_one_first_match (hits : List SearchHitB) (t a : PyStr) :
    choose_one hits t a =
      ((hits.find? (utaExact (normalize_key (some t))
        (normalize_key (some a)))).orElse (fun _ => hits.head?)) := by
  rcases hits with _ | ⟨h, hs⟩
  · rfl
  · simp only [choose_one]
    rw [find?_eq_filter_head]
    rcases hf : (h :: hs).filter
        (utaExact (normalize_key (some t)) (normalize_key (some a))) with _ | ⟨e, es⟩ <;>
      simp

/-! ## Claims C6 and C7: the caption cleaner -/

theorem dedupAux_sublist (last : PyStr) (l : List PyStr) :
    List.Sublist (dedupAux last l) l := by
  induction l generalizing last with
  | nil => exact List.Sublist.refl []
  | cons y ys ih =>
    simp only [dedupAux]
    split
    · exact (ih last).trans (List.sublist_cons_self y ys)
    · exact (ih y).cons₂ y

theorem dedupConsec_sublist (l : List PyStr) :
    List.Sublist (dedupConsec l) l := by
  cases l with
  | nil => exact List.Sublist.refl []
  | cons x xs => exact (dedupAux_sublist x xs).cons₂ x

theorem dedupAux_chain (last : PyStr) (l : List PyStr) :
    List.Chain' (· ≠ ·) (last :: dedupAux last l) := by
  induction l generalizing last with
  | nil => simp [dedupAux]
  | cons y ys ih =>
    simp only [dedupAux]
    split
    · exact ih last
    · next hne =>
      rw [List.chain'_cons]
      exact ⟨fun he => hne he.symm, ih y⟩

theorem dedupConsec_chain (l : List PyStr) :
    List.Chain' (· ≠ ·) (dedupConsec l) := by
  cases l with
  | nil => simp [dedupConsec]
  | cons x xs => exact dedupAux_chain x xs

/-- Claim C6: the caption cleaner keeps exactly the stripped lines that
are non-empty, not purely numeric and free of the time-range arrow, in
order (a sublist), collapses immediately-repeated lines (no two adjacent
output lines are equal), joins with newlines; and on the three-block
`Hello`/`Hello`/`World` track it yields exactly `"Hello\nWorld"`. -/
theorem srt_cleaner_spec :
    srt_to_lyrics
        ["1".toList, "00:00:01,000 --> 00:00:02,000".toList, "Hello".toList,
          "".toList, "2".toList, "00:00:02,000 --> 00:00:03,000".toList,
          "Hello".toList, "".toList, "3".toList,
          "00:00:03,000 --> 00:00:04,000".toList, "World".toList, "".toList] =
      "Hello\nWorld".toList ∧
    (∀ raws : List PyStr,
      srt_to_lyrics raws = joinNl (dedupConsec (srtFilter raws)) ∧
      (∀ l ∈ srtFilter raws, keepLine l = true) ∧
      List.Sublist (dedupConsec (srtFilter raws)) (srtFilter raws) ∧
      List.Chain' (· ≠ ·) (dedupConsec (srtFilter raws))) := by
  refine ⟨by decide, fun raws =>
    ⟨rfl, fun l hl => List.of_mem_filter hl, dedupConsec_sublist _,
      dedupConsec_chain _⟩⟩

/-- Witness for claim C6: the kept line `"Hello"` of the concrete track
satisfies the keep-predicate. -/
theorem srt_cleaner_spec_witness : keepLine "Hello".toList = true :=
  (srt_cleaner_spec.2
      ["1".toList, "00:00:01,000 --> 00:00:02,000".toList,
        "Hello".toList]).2.1 "Hello".toList (by decide)

/-- Counterexample to claim C7: a caption track all of whose lines are
index, time-range or blank lines yields zero candidate lines, and the
caption cleaner returns the empty string — `register_lyrics_from_request`
propagates it as a successful result — instead of surfacing a NotFound
condition. -/
theorem empty_track_returns_empty :
    srt_to_lyrics
        ["1".toList, "00:00:01,000 --> 00:00:02,000".toList, "".toList] = [] ∧
    register_lyrics_from_request [] [] "vid".toList
        (Except.ok ["1".toList, "00:00:01,000 --> 00:00:02,000".toList,
          "".toList]) =
      Except.ok ([], "vid".toList) := by
  exact ⟨by decide, rfl⟩

/-- Claim C7 (amended): for a track yielding zero candidate lines, the
cleaner returns the empty string without raising, and the orchestrator's
usability gate rejects that empty text (so the cascade falls through to
the next source instead of accepting it). -/
theorem empty_track_amended (raws : List PyStr) (h : srtFilter raws = []) :
    srt_to_lyrics raws = [] ∧
      looks_like_lyrics (srt_to_lyrics raws) = false ∧
      ∀ a t v, register_lyrics_from_request a t v (Except.ok raws) =
        Except.ok (([] : PyStr), v) := by
  have h1 : srt_to_lyrics raws = [] := by
    unfold srt_to_lyrics
    rw [h]
    rfl
  refine ⟨h1, by rw [h1]; decide, fun a t v => ?_⟩
  show Except.ok (srt_to_lyrics raws, v) = _
  rw [h1]

/-- Witness for claim C7 (amended) at a concrete empty-yield track. -/
theorem empty_track_amended_witness :
    srt_to_lyrics
        ["7".toList, "00:01:01,000 --> 00:01:02,000".toList, " ".toList] = [] ∧
      looks_like_lyrics (srt_to_lyrics
        ["7".toList, "00:01:01,000 --> 00:01:02,000".toList, " ".toList]) =
        false :=
  ⟨(empty_track_amended _ (by decide)).1, (empty_track_amended _ (by decide)).2.1⟩

/-! ## Claim C8: the furigana/romaji token cleaner -/

theorem cleanTokens_sublist (prev : Bool) (toks : List PyStr) :
    List.Sublist (cleanTokens prev toks) toks := by
  induction toks generalizing prev with
  | nil => exact List.Sublist.refl []
  | cons tok rest ih =>
    simp only [cleanTokens]
    split_ifs with h1 h2 h3
    · exact (ih prev).trans (List.sublist_cons_self tok rest)
    · exact (ih false).trans (List.sublist_cons_self tok rest)
    · exact (ih false).trans (List.sublist_cons_self tok rest)
    · exact (ih (hasKanji tok)).cons₂ tok

theorem cleanTokens_no_latin (prev : Bool) (toks : List PyStr) :
    ∀ tok ∈ cleanTokens prev toks, isLatinOnly tok = false := by
  induction toks generalizing prev with
  | nil => simp [cleanTokens]
  | cons tok rest ih =>
    intro t ht
    simp only [cleanTokens] at ht
    split_ifs at ht with h1 h2 h3
    · exact ih prev t ht
    · exact ih false t ht
    · exact ih false t ht
    · rcases List.mem_cons.mp ht with rfl | ht2
      · simpa using h2
      · exact ih (hasKanji tok) t ht2

/-- Claim C8: the Site-B per-line cleaner drops latin-only tokens, drops
kana-only glosses of length at most 12 immediately following a kept
kanji-bearing token, and concatenates the survivors; on the token line
`"昨日人 きのうひと を 殺 ころ したんだ"` it yields exactly
`"昨日人を殺したんだ"`.  In general the kept tokens form a sublist of the
input tokens and no kept token is latin-only. -/
theorem siteB_line_cleaning_spec :
    clean_line_drop_furigana_romaji
        "昨日人 きのうひと を 殺 ころ したんだ".toList = "昨日人を殺したんだ".toList ∧
    (∀ (prev : Bool) (toks : List PyStr),
      List.Sublist (cleanTokens prev toks) toks ∧
      ∀ tok ∈ cleanTokens prev toks, isLatinOnly tok = false) := by
  refine ⟨by decide, fun prev toks =>
    ⟨cleanTokens_sublist prev toks, cleanTokens_no_latin prev toks⟩⟩

/-- Witness for claim C8: the kept token `"昨日人"` of the concrete line
is not latin-only. -/
theorem siteB_line_cleaning_spec_witness :
    isLatinOnly "昨日人".toList = false :=
  (siteB_line_cleaning_spec.2 false
      ["昨日人".toList, "きのうひと".toList]).2 "昨日人".toList (by decide)

/-! ## Claim C9: latin-heavy truncation -/

theorem latin_heavy_nonempty (l : PyStr) (h : latin_heavy l = true) :
    l.isEmpty = false := by
  rcases l with _ | ⟨c, l⟩
  · exact absurd h (by decide)
  · rfl

theorem junkExact_not_latin_heavy (l : PyStr) (h : junkExact l = true) :
    latin_heavy l = false := by
  simp only [junkExact, Bool.or_eq_true, decide_eq_true_eq] at h
  rcases h with ((((h | h) | h) | h) | h) | h <;> rw [h] <;> decide

/-- Counterexample to claim C9 as stated: the line
`"a b c d e f g h i j k l"` has 12 latin runs (each of one letter)
totalling 12 characters, so the claim says it halts extraction, yet the
per-line loop continues and keeps the following line. -/
theorem latin_run_claim_mismatch :
    claimLatinHeavy "a b c d e f g h i j k l".toList = true ∧
      processLines ["a b c d e f g h i j k l".toList, "あいうえお".toList] =
        ["あいうえお".toList] := by
  constructor <;> decide

/-- Claim C9 (amended): the first line whose latin runs OF LENGTH AT
LEAST TWO number at least 4 and total at least 12 characters halts the
per-line loop of the Site-B extractor: that line and every subsequent
line contribute nothing. -/
theorem latin_heavy_halts (pre suf : List PyStr) (l : PyStr)
    (h : latin_heavy l = true) :
    processLines (pre ++ l :: suf) = processLines pre := by
  induction pre with
  | nil =>
    simp only [List.nil_append, processLines]
    rw [latin_heavy_nonempty l h]
    simp only [Bool.false_eq_true, if_false]
    split_ifs with h1
    · exact absurd h (by simp [junkExact_not_latin_heavy l h1])
    · rfl
  | cons p pre ih =>
    simp only [List.cons_append, processLines]
    split_ifs <;> first | rfl | exact ih | exact congrArg _ ih

/-- Witness for claim C9 (amended): a concrete romaji line halts the loop
and the following line contributes nothing. -/
theorem latin_heavy_halts_witness :
    processLines (["あいうえおかきくけこ".toList] ++
        "koko ni ita koto wo wasurenai yo".toList :: ["残りは無視".toList]) =
      processLines ["あいうえおかきくけこ".toList] :=
  latin_heavy_halts ["あいうえおかきくけこ".toList] ["残りは無視".toList]
    "koko ni ita koto wo wasurenai yo".toList (by decide)

/-! ## Claim C10: Site-B extraction without a landmark -/

theorem findString_none (pat : PyStr) (doc : List BNode)
    (h : ∀ s, BNode.text s ∈ doc → containsSub pat s = false) :
    findString pat doc = none := by
  induction doc with
  | nil => rfl
  | cons n rest ih =>
    cases n with
    | text s =>
      simp only [findString]
      rw [h s (by simp), if_neg (by simp)]
      exact ih (fun s2 hs2 => h s2 (by simp [hs2]))
    | br => exact ih (fun s2 hs2 => h s2 (by simp [hs2]))
    | other => exact ih (fun s2 hs2 => h s2 (by simp [hs2]))

/-- Claim C10: for a document none of whose text nodes contains either
Site-B landmark (`ダークモード`, `ふりがな`), the extractor returns the
empty string without raising, and the adapter's final gate then reports
the extraction as failed (the empty result is below the 50-character
minimum). -/
theorem no_landmark_extracts_empty (doc : List BNode)
    (h : ∀ s, BNode.text s ∈ doc →
      containsSub "ダークモード".toList s = false ∧
        containsSub "ふりがな".toList s = false) :
    extract_lyrics_only doc = [] ∧
      fetch_utaten_check (extract_lyrics_only doc) =
        Except.error utatenFailMsg := by
  have h1 : findString "ダークモード".toList doc = none :=
    findString_none _ _ (fun s hs => (h s hs).1)
  have h2 : findString "ふりがな".toList doc = none :=
    findString_none _ _ (fun s hs => (h s hs).2)
  have he : extract_lyrics_only doc = [] := by
    unfold extract_lyrics_only
    rw [h1, h2]
  exact ⟨he, by rw [he]; rfl⟩

/-- Witness for claim C10 at a concrete landmark-free document. -/
theorem no_landmark_extracts_empty_witness :
    extract_lyrics_only
        [BNode.text "hello world".toList, BNode.br, BNode.other] = [] ∧
      fetch_utaten_check (extract_lyrics_only
        [BNode.text "hello world".toList, BNode.br, BNode.other]) =
        Except.error utatenFailMsg :=
  no_landmark_extracts_empty _ (by
    intro s hs
    simp at hs
    subst hs
    exact ⟨by decide, by decide⟩)
